import Mathlib

/-!
Verification of the ComfyUI API client (src/main.py, src/comfy_client.py,
src/utils.py) against its natural-language specification.

The Python code is shallowly embedded:

* A workflow document is an ordered association list of node id to node
  record, mirroring the insertion-ordered JSON object the code iterates
  with dict.items().  Nodes are modelled as well-formed records per the
  spec's data model (optional class_type string, optional _meta.title
  string, an inputs mapping); the isinstance guard of the prompt patcher
  is vacuous on such documents.
* In-place dict mutation is modelled by state passing: a patcher returns
  both the exception-or-unit outcome and the final document.
* Wall-clock time in the polling loop advances by exactly interval per
  sleep; the HTTP poll itself is modelled as instantaneous.  The loop is
  embedded with a fuel argument, with fuel chosen large enough that the
  fuel-out branch is unreachable for the inputs the theorems speak about.
* HTTP and S3 effects are supplied as environments: a function from poll
  index to history response, a function from image descriptor to view
  response, and a function from object key to put_object outcome.
* The PIL decode/re-encode round trip performed by save_images is an
  abstract function on byte strings, supplied as a parameter.
-/

namespace ComfyApi

/-- JSON-style values that appear as node input fields. -/
inductive JVal where
  | str : String → JVal
  | num : Int → JVal
  | null : JVal
deriving DecidableEq, Repr

/-- A workflow node: `class_type`, the optional `_meta.title`, and the
`inputs` object.  `extra` stands for any further JSON fields of the node
object, which no patcher ever touches. -/
structure Node where
  class_type : Option String
  meta_title : Option String
  inputs : List (String × JVal)
  extra : List (String × JVal)
deriving DecidableEq, Repr

/-- Python `key in dict`. -/
def hasKey (key : String) : List (String × JVal) → Bool
  | [] => false
  | (k, _) :: rest => k == key || hasKey key rest

/-- Python `dict.get(key)` as an Option. -/
def lookupKey (key : String) : List (String × JVal) → Option JVal
  | [] => none
  | (k, v) :: rest => if k == key then some v else lookupKey key rest

/-- Python `dict[key] = v` on a key already present: replace the value at
the first occurrence of the key, preserving order. -/
def setFirst (key : String) (v : JVal) : List (String × JVal) → List (String × JVal)
  | [] => []
  | (k, w) :: rest => if k == key then (k, v) :: rest else (k, w) :: setFirst key v rest

/-- Python `pat in s` on lists of characters: some suffix of `s` starts
with `pat`. -/
def listHasSub (pat : List Char) : List Char → Bool
  | [] => pat.isEmpty
  | c :: rest => pat.isPrefixOf (c :: rest) || listHasSub pat rest

/-- Python `pat in s` for strings. -/
def strHasSub (s pat : String) : Bool := listHasSub pat.toList s.toList

/-- Python str.lower(), modelled per character (the titles at stake are
ASCII, where str.lower is exactly the per-character lowering). -/
def lowerStr (s : String) : String := String.mk (s.data.map Char.toLower)

/-- The lowercased title the prompt patcher computes:
`node.get("_meta", \x7b\x7d).get("title", "").lower()`. -/
def titleLower (n : Node) : String := lowerStr (n.meta_title.getD (""))

/-- The guard of patch_prompt_text_node's loop body: class_type is
CLIPTextEncode, the lowercased title does not contain "negative", and the
inputs contain a "text" field. -/
def promptEligible (n : Node) : Bool :=
  n.class_type == some ("CLIPTextEncode") &&
  !(strHasSub (titleLower n) ("negative")) &&
  hasKey ("text") n.inputs

/-- The guard of patch_load_image_node's loop body: class_type is
LoadImage and the inputs contain an "image" field. -/
def imageEligible (n : Node) : Bool :=
  n.class_type == some ("LoadImage") && hasKey ("image") n.inputs

/-- Sample negative-titled text-encoding node for concrete checks. -/
def negNode : Node :=
  { class_type := some ("CLIPTextEncode"), meta_title := some ("Negative Prompt"),
    inputs := [(("text"), JVal.str ("bad quality"))], extra := [] }

/-- Sample positive text-encoding node for concrete checks. -/
def posNode : Node :=
  { class_type := some ("CLIPTextEncode"), meta_title := some ("Positive Prompt"),
    inputs := [(("text"), JVal.str ("old")), (("clip"), JVal.null)], extra := [] }

/-- Sample node of an unrelated role for concrete checks. -/
def samplerNode : Node :=
  { class_type := some ("KSampler"), meta_title := none,
    inputs := [(("seed"), JVal.num 42)], extra := [] }

/-- The two ValueError raises of the patchers, by origin. -/
inductive PatchErr where
  | noPromptTextNode
  | noLoadImageNode
deriving DecidableEq, Repr

/-- utils.patch_prompt_text_node: scan the document in iteration order;
at the first node passing the guard overwrite its "text" input with the
supplied prompt and return; if the scan is exhausted raise ValueError.
The returned document is the final state of the in-place mutation. -/
def patch_prompt_text_node (workflow : List (String × Node)) (prompt_text : String) :
    Except PatchErr Unit × List (String × Node) :=
  match workflow with
  | [] => (Except.error PatchErr.noPromptTextNode, [])
  | (node_id, node) :: rest =>
    if promptEligible node then
      (Except.ok (),
       (node_id, { node with inputs := setFirst ("text") (JVal.str prompt_text) node.inputs }) :: rest)
    else
      let r := patch_prompt_text_node rest prompt_text
      (r.1, (node_id, node) :: r.2)

/-- utils.patch_load_image_node: scan for the first LoadImage node with an
"image" input and overwrite that input with image_info["name"] (passed
here as the value `image_name`); raise ValueError if none exists. -/
def patch_load_image_node (workflow : List (String × Node)) (image_name : JVal) :
    Except PatchErr Unit × List (String × Node) :=
  match workflow with
  | [] => (Except.error PatchErr.noLoadImageNode, [])
  | (node_id, node) :: rest =>
    if imageEligible node then
      (Except.ok (),
       (node_id, { node with inputs := setFirst ("image") image_name node.inputs }) :: rest)
    else
      let r := patch_load_image_node rest image_name
      (r.1, (node_id, node) :: r.2)

/-- One image descriptor of a node's output list:
filename, subfolder, storage type. -/
structure ImageDesc where
  filename : String
  subfolder : String
  ftype : String
deriving DecidableEq, Repr

/-- One node's entry in the history outputs: `output.get("images", [])`. -/
structure NodeOutput where
  images : List ImageDesc
deriving DecidableEq, Repr

/-- The Execution Outputs mapping: node id to its output record, in
iteration order. -/
abbrev Outputs := List (String × NodeOutput)

/-- The entry `history[prompt_id]`: its optional `outputs` field. -/
structure HistoryEntry where
  outputs : Option Outputs
deriving DecidableEq, Repr

/-- Outcome of one call to get_history for our prompt id: either a JSON
response (with or without an entry for the id), or an exception raised by
the request or the JSON decoding. -/
inductive HistoryResult where
  | response : Option HistoryEntry → HistoryResult
  | exn : HistoryResult
deriving DecidableEq, Repr

/-- The loop-body guard of wait_for_execution:
`prompt_id in history and history[prompt_id].get("outputs")` yields the
outputs exactly when the entry exists and its outputs field is present
and truthy (a non-empty mapping); an exception from get_history lands in
the except branch, which falls through to the sleep like any other
unsuccessful poll. -/
def pollOutputs (h : HistoryResult) : Option Outputs :=
  match h with
  | HistoryResult.response (some entry) =>
    match entry.outputs with
    | some outs => if outs.isEmpty then none else some outs
    | none => none
  | HistoryResult.response none => none
  | HistoryResult.exn => none

/-- Result of the wait loop: outputs together with the number of polls
issued, or a timeout together with the number of polls issued and the
elapsed time at the raise.  fuelOut is a modelling artifact proved
unreachable where the theorems need it. -/
inductive WaitOutcome where
  | completed : Outputs → Nat → WaitOutcome
  | timedOut : Nat → Int → WaitOutcome
  | fuelOut : Nat → WaitOutcome
deriving DecidableEq, Repr

/-- The while loop of wait_for_execution.  The deadline test
`time.time() - start_time < timeout` is checked before each poll; each
iteration polls once and then sleeps for `interval`, which is the only
advance of the clock in this time model. -/
def waitLoop (hist : Nat → HistoryResult) (timeout interval : Int) :
    Nat → Int → Nat → WaitOutcome
  | 0, elapsed, polls =>
    if elapsed < timeout then WaitOutcome.fuelOut polls
    else WaitOutcome.timedOut polls elapsed
  | f + 1, elapsed, polls =>
    if elapsed < timeout then
      match pollOutputs (hist polls) with
      | some outs => WaitOutcome.completed outs (polls + 1)
      | none => waitLoop hist timeout interval f (elapsed + interval) (polls + 1)
    else WaitOutcome.timedOut polls elapsed

/-- ComfyUIClient.wait_for_execution with its integer timeout and
interval arguments (defaults 300 and 5).  timeout.toNat + 1 units of fuel
cover every iteration the deadline can admit whenever interval ≥ 1. -/
def wait_for_execution (hist : Nat → HistoryResult)
    (timeout : Int := 300) (interval : Int := 5) : WaitOutcome :=
  waitLoop hist timeout interval (timeout.toNat + 1) 0 0

/-- A non-2xx response to the job-creation POST: urllib raises HTTPError
carrying the status code, and the handler reads the error body. -/
structure HTTPError where
  code : Nat
  body : String
deriving DecidableEq, Repr

/-- Raw binary content. -/
abbrev Bytes := List Nat

/-- The error kinds of one client run, named as in the specification. -/
inductive RunErr where
  | submissionFailed : Nat → String → RunErr
  | executionTimeout : RunErr
  | retrievalFailed : RunErr
  | pollFuelOut : RunErr
deriving DecidableEq, Repr

/-- The server as seen by one run: the response to the one job-creation
call, the history response per poll index, and the /view response per
image descriptor. -/
structure ServerEnv where
  queueResponse : Except HTTPError String
  hist : Nat → HistoryResult
  view : ImageDesc → Except Unit Bytes

/-- ComfyUIClient.queue_prompt: on a 2xx response return the prompt_id;
on HTTPError log the status and body and re-raise the same error, which
carries the code and the body just read.  There is no retry. -/
def queue_prompt (resp : Except HTTPError String) : Except RunErr String :=
  match resp with
  | Except.ok pid => Except.ok pid
  | Except.error e => Except.error (RunErr.submissionFailed e.code e.body)

/-- The inner fetch loop of get_images over one node's image list:
request each descriptor in order via get_image_file; an exception from
any request propagates, aborting the loop.  Also returns the list of
issued /view requests. -/
def fetchNodeImages (view : ImageDesc → Except Unit Bytes) :
    List ImageDesc → Except Unit (List Bytes) × List ImageDesc
  | [] => (Except.ok [], [])
  | d :: rest =>
    match view d with
    | Except.error _ => (Except.error (), [d])
    | Except.ok b =>
      let r := fetchNodeImages view rest
      ((r.1).map (fun bs => b :: bs), d :: r.2)

/-- The outer fetch loop of get_images over the outputs mapping, in
iteration order. -/
def fetchAllImages (view : ImageDesc → Except Unit Bytes) :
    Outputs → Except Unit (List (String × List Bytes)) × List ImageDesc
  | [] => (Except.ok [], [])
  | (node_id, out) :: rest =>
    let rn := fetchNodeImages view out.images
    match rn.1 with
    | Except.error _ => (Except.error (), rn.2)
    | Except.ok bs =>
      let rr := fetchAllImages view rest
      ((rr.1).map (fun m => (node_id, bs) :: m), rn.2 ++ rr.2)

/-- Result of get_images, instrumented with the number of job-creation
attempts, the number of history polls, and the /view requests issued. -/
structure GetImagesResult where
  result : Except RunErr (List (String × List Bytes) × String)
  queueAttempts : Nat
  polls : Nat
  viewRequests : List ImageDesc

/-- ComfyUIClient.get_images: queue_prompt, then wait_for_execution with
its default timeout and interval, then fetch every image of every node.
An error at any stage propagates and ends the run. -/
def get_images (env : ServerEnv) : GetImagesResult :=
  match queue_prompt env.queueResponse with
  | Except.error e =>
    { result := Except.error e, queueAttempts := 1, polls := 0, viewRequests := [] }
  | Except.ok pid =>
    match wait_for_execution env.hist with
    | WaitOutcome.completed outs polls =>
      let fr := fetchAllImages env.view outs
      match fr.1 with
      | Except.ok images =>
        { result := Except.ok (images, pid), queueAttempts := 1,
          polls := polls, viewRequests := fr.2 }
      | Except.error _ =>
        { result := Except.error RunErr.retrievalFailed, queueAttempts := 1,
          polls := polls, viewRequests := fr.2 }
    | WaitOutcome.timedOut polls _ =>
      { result := Except.error RunErr.executionTimeout, queueAttempts := 1,
        polls := polls, viewRequests := [] }
    | WaitOutcome.fuelOut polls =>
      { result := Except.error RunErr.pollFuelOut, queueAttempts := 1,
        polls := polls, viewRequests := [] }

/-- Replace an exception outcome of a poll by the pending outcome the
except branch of the wait loop falls through to. -/
def pendingize : HistoryResult → HistoryResult
  | HistoryResult.exn => HistoryResult.response none
  | h => h

/-- Extract the bytes of a successful /view response (irrelevant default
on the error side, used only under an all-successful hypothesis). -/
def okBytes : Except Unit Bytes → Bytes
  | Except.ok b => b
  | Except.error _ => []

/-- The exception classes the body of upload_to_s3 can raise, by how they
reach the handler.  botocore defines BotoCoreError and ClientError as
siblings: ClientError subclasses Exception directly, not BotoCoreError,
and NoCredentialsError subclasses BotoCoreError.  put_object raises
ClientError whenever the object store rejects the request — in
particular for a credential error such as InvalidAccessKeyId or
SignatureDoesNotMatch. -/
inductive UploadExn where
  | botoCoreError
  | noCredentialsError
  | clientError
deriving DecidableEq, Repr

/-- Which classes the handler of upload_to_s3 catches: the except clause
is written over the tuple (BotoCoreError, NoCredentialsError), so a
ClientError is not caught. -/
def caughtByS3Handler : UploadExn → Bool
  | UploadExn.botoCoreError => true
  | UploadExn.noCredentialsError => true
  | UploadExn.clientError => false

/-- utils.upload_to_s3: run the session/put_object body (its outcome is
supplied by the environment); a caught exception is logged and swallowed,
any other exception propagates to the caller. -/
def upload_to_s3 (putOutcome : Except UploadExn Unit) : Except UploadExn Unit :=
  match putOutcome with
  | Except.ok _ => Except.ok ()
  | Except.error e => if caughtByS3Handler e then Except.ok () else Except.error e

/-- Observable effects of one save_images call: the directories passed to
ensure_folder, the local files written (path and re-encoded bytes, in
write order), the put_object calls attempted (object key and the raw
bytes passed), and the exception-or-unit outcome of the call. -/
structure SaveTrace where
  dirsCreated : List String
  filesWritten : List (String × Bytes)
  uploadsAttempted : List (String × Bytes)
  result : Except UploadExn Unit

/-- The inner loop of save_images over one node's image list, with idx
the 1-based enumerate counter: build the filename, decode/re-encode and
write the local file, then, when S3 is enabled, upload the raw bytes
under the comfyui/ key; an uncaught upload exception aborts the loop. -/
def saveNodeImages (reencode : Bytes → Bytes) (s3_enabled : Bool)
    (put : String → Except UploadExn Unit)
    (output_dir prompt_id node_id : String) :
    List Bytes → Nat → List (String × Bytes) × List (String × Bytes) × Except UploadExn Unit
  | [], _ => ([], [], Except.ok ())
  | data :: rest, idx =>
    let filename := node_id ++ "_" ++ toString idx ++ ".png"
    let local_path := output_dir ++ "/" ++ filename
    let file := (local_path, reencode data)
    if s3_enabled then
      let s3_key := "comfyui/" ++ prompt_id ++ "/" ++ filename
      match upload_to_s3 (put s3_key) with
      | Except.error e => ([file], [(s3_key, data)], Except.error e)
      | Except.ok _ =>
        let r := saveNodeImages reencode s3_enabled put output_dir prompt_id node_id rest (idx + 1)
        (file :: r.1, (s3_key, data) :: r.2.1, r.2.2)
    else
      let r := saveNodeImages reencode s3_enabled put output_dir prompt_id node_id rest (idx + 1)
      (file :: r.1, r.2.1, r.2.2)

/-- The outer loop of save_images over the images mapping, in iteration
order; an uncaught upload exception aborts the remaining nodes. -/
def saveAllImages (reencode : Bytes → Bytes) (s3_enabled : Bool)
    (put : String → Except UploadExn Unit) (output_dir prompt_id : String) :
    List (String × List Bytes) → List (String × Bytes) × List (String × Bytes) × Except UploadExn Unit
  | [] => ([], [], Except.ok ())
  | (node_id, image_list) :: rest =>
    let rn := saveNodeImages reencode s3_enabled put output_dir prompt_id node_id image_list 1
    match rn.2.2 with
    | Except.error e => (rn.1, rn.2.1, Except.error e)
    | Except.ok _ =>
      let rr := saveAllImages reencode s3_enabled put output_dir prompt_id rest
      (rn.1 ++ rr.1, rn.2.1 ++ rr.2.1, rr.2.2)

/-- ComfyUIClient.save_images: ensure the run-scoped directory
saved_images/prompt_id, then write each image there as
node_id_idx.png with 1-based idx, uploading to S3 per image when enabled.
get_s3_config() returns a non-empty dict, so the truthiness test
`s3_enabled and s3_config` reduces to the s3_enabled flag. -/
def save_images (reencode : Bytes → Bytes) (s3_enabled : Bool)
    (put : String → Except UploadExn Unit)
    (images : List (String × List Bytes)) (prompt_id : String) : SaveTrace :=
  let output_dir := "saved_images/" ++ prompt_id
  let r := saveAllImages reencode s3_enabled put output_dir prompt_id images
  { dirsCreated := [output_dir], filesWritten := r.1,
    uploadsAttempted := r.2.1, result := r.2.2 }

/-- The error kinds that can reach main's handler, per the spec's
taxonomy. -/
inductive PipelineErr where
  | documentNotFound : String → PipelineErr
  | nodeNotFound : PatchErr → PipelineErr
  | submissionFailed : Nat → String → PipelineErr
  | executionTimeout : PipelineErr
  | retrievalFailed : PipelineErr
  | uploadUncaught : UploadExn → PipelineErr
deriving DecidableEq, Repr

/-- What the process does after main returns: which error (if any) was
logged with the "Execution failed" context, whether an exception escaped
main, and the interpreter's exit status. -/
structure MainOutcome where
  loggedError : Option PipelineErr
  raised : Bool
  exitCode : Nat
deriving DecidableEq, Repr

/-- main.main: run the pipeline inside try/except Exception; every
pipeline error is an Exception subclass, so the handler logs
"Execution failed: ..." and returns normally — and a normal return from
the script means the interpreter exits with status 0 in both branches. -/
def main (run : Except PipelineErr Unit) : MainOutcome :=
  match run with
  | Except.ok _ => { loggedError := none, raised := false, exitCode := 0 }
  | Except.error e => { loggedError := some e, raised := false, exitCode := 0 }

/-!  Theorems.  Each claim of the specification gets one theorem (with a
counterexample first where the claim fails on the code). -/

/-- C1 counterexample: with S3 enabled and the object store rejecting the
request with a credential error (botocore ClientError, not caught by the
except clause over BotoCoreError and NoCredentialsError), the exception
propagates out of save_images instead of being swallowed. -/
theorem c1_counterexample :
    (save_images id true (fun _ => Except.error UploadExn.clientError)
      [(("9"), [[0]])] ("abc")).result = Except.error UploadExn.clientError := rfl

/-- C2 counterexample: when the pipeline fails with ExecutionTimeout,
main logs the error with context and does not raise further, but the
process then exits with status 0 — not a non-zero status. -/
theorem c2_counterexample :
    (main (Except.error PipelineErr.executionTimeout)).loggedError =
        some PipelineErr.executionTimeout ∧
    (main (Except.error PipelineErr.executionTimeout)).raised = false ∧
    (main (Except.error PipelineErr.executionTimeout)).exitCode = 0 := by
  exact ⟨rfl, rfl, rfl⟩

/-- C2 (amended): for every failure reaching the top level, main logs the
error with its context, raises nothing further, and the process exits
with status 0 (a success status, not non-zero). -/
theorem c2_amended (e : PipelineErr) :
    main (Except.error e) =
      { loggedError := some e, raised := false, exitCode := 0 } := rfl

/-- C6: a non-success HTTP status on the job-creation call makes the run
fail with SubmissionFailed carrying the status code and the server's
error body; the call is made exactly once (no retry), no history poll is
issued, and no artifact retrieval is attempted. -/
theorem c6_submission_failed (env : ServerEnv) (c : Nat) (b : String)
    (hq : env.queueResponse = Except.error { code := c, body := b }) :
    get_images env = { result := Except.error (RunErr.submissionFailed c b),
                       queueAttempts := 1, polls := 0, viewRequests := [] } := by
  simp [get_images, queue_prompt, hq]

/-- C6 witness at a concrete 500 response. -/
theorem c6_witness :
    get_images { queueResponse := Except.error { code := 500, body := ("boom") },
                 hist := fun _ => HistoryResult.exn,
                 view := fun _ => Except.error () } =
      { result := Except.error (RunErr.submissionFailed 500 ("boom")),
        queueAttempts := 1, polls := 0, viewRequests := [] } :=
  c6_submission_failed _ 500 ("boom") rfl

/-- Helper: against a source that never yields outputs, the wait loop
ends in timedOut whenever enough fuel is supplied, with the final elapsed
time determined by the number of extra polls and at least the timeout. -/
theorem waitLoop_timedOut_of_never (hist : Nat → HistoryResult)
    (timeout interval : Int) (hnever : ∀ k, pollOutputs (hist k) = none) :
    ∀ (fuel : Nat) (elapsed : Int) (polls : Nat),
      timeout ≤ elapsed + (fuel : Int) * interval →
      ∃ n : Nat, polls ≤ n ∧
        waitLoop hist timeout interval fuel elapsed polls =
          WaitOutcome.timedOut n (elapsed + ((n - polls : Nat) : Int) * interval) ∧
        timeout ≤ elapsed + ((n - polls : Nat) : Int) * interval := by
  intro fuel
  induction fuel with
  | zero =>
    intro elapsed polls h
    have h' : timeout ≤ elapsed := by simpa using h
    refine ⟨polls, le_refl _, ?_, ?_⟩
    · simp only [waitLoop, if_neg (not_lt.mpr h')]
      simp
    · simpa using h'
  | succ f ih =>
    intro elapsed polls h
    by_cases hlt : elapsed < timeout
    · have hstep : timeout ≤ (elapsed + interval) + (f : Int) * interval := by
        push_cast at h
        linarith
      obtain ⟨n, hpn, heq, hto⟩ := ih (elapsed + interval) (polls + 1) hstep
      have hsub : (n - polls : Nat) = (n - (polls + 1) : Nat) + 1 := by omega
      refine ⟨n, by omega, ?_, ?_⟩
      · simp only [waitLoop, if_pos hlt, hnever polls]
        rw [heq]
        congr 1
        rw [hsub]
        push_cast
        ring
      · rw [hsub]
        push_cast
        linarith
    · have h' : timeout ≤ elapsed := not_lt.mp hlt
      refine ⟨polls, le_refl _, ?_, ?_⟩
      · simp only [waitLoop, if_neg hlt]
        simp
      · simpa using h'

/-- C3: against a source that never reports outputs, wait_for_execution
with timeout T > 0 and interval I > 0 fails with TimeoutError, the model
clock at the raise is at least T, and at least floor(T / I) polls were
issued before failing. -/
theorem c3_timeout_floor (hist : Nat → HistoryResult) (timeout interval : Int)
    (hT : 0 < timeout) (hI : 0 < interval)
    (hnever : ∀ k, pollOutputs (hist k) = none) :
    ∃ (n : Nat) (e : Int),
      wait_for_execution hist timeout interval = WaitOutcome.timedOut n e ∧
      timeout ≤ e ∧ timeout.toNat / interval.toNat ≤ n := by
  have htc : ((timeout.toNat : Nat) : Int) = timeout := Int.toNat_of_nonneg hT.le
  have hic : ((interval.toNat : Nat) : Int) = interval := Int.toNat_of_nonneg hI.le
  have hfuel : timeout ≤ 0 + ((timeout.toNat + 1 : Nat) : Int) * interval := by
    have h1 : (timeout + 1) * 1 ≤ (timeout + 1) * interval :=
      mul_le_mul_of_nonneg_left (by omega) (by omega)
    push_cast
    rw [htc]
    linarith
  obtain ⟨n, _, heq, hto⟩ :=
    waitLoop_timedOut_of_never hist timeout interval hnever (timeout.toNat + 1) 0 0 hfuel
  refine ⟨n, 0 + ((n - 0 : Nat) : Int) * interval, heq, hto, ?_⟩
  have h2 : (timeout : Int) ≤ (n : Int) * interval := by simpa using hto
  have h3 : timeout.toNat ≤ n * interval.toNat := by
    rw [Int.toNat_le]
    push_cast
    rw [hic]
    exact h2
  have hi : 0 < interval.toNat := by omega
  calc timeout.toNat / interval.toNat
      ≤ (n * interval.toNat) / interval.toNat := Nat.div_le_div_right h3
    _ = n := Nat.mul_div_cancel _ hi

/-- C3 witness: timeout 10 and interval 5 against a source whose every
poll raises. -/
theorem c3_witness :
    ∃ (n : Nat) (e : Int),
      wait_for_execution (fun _ => HistoryResult.exn) 10 5 = WaitOutcome.timedOut n e ∧
      (10 : Int) ≤ e ∧ (10 : Int).toNat / (5 : Int).toNat ≤ n :=
  c3_timeout_floor _ 10 5 (by decide) (by decide) (fun _ => rfl)

/-- Helper: if the polls before index d (counting from the current poll
counter) are unsuccessful and poll d reports outputs, the loop returns
those outputs having issued exactly d + 1 further polls, provided the
deadline and the fuel admit reaching poll d. -/
theorem waitLoop_completed_first (hist : Nat → HistoryResult)
    (timeout interval : Int) (outs : Outputs) (hI : 0 < interval) :
    ∀ (d fuel : Nat) (elapsed : Int) (polls : Nat),
      d < fuel →
      (∀ j, j < d → pollOutputs (hist (polls + j)) = none) →
      pollOutputs (hist (polls + d)) = some outs →
      elapsed + (d : Int) * interval < timeout →
      waitLoop hist timeout interval fuel elapsed polls =
        WaitOutcome.completed outs (polls + d + 1) := by
  intro d
  induction d with
  | zero =>
    intro fuel elapsed polls hdf _ hsucc htime
    obtain ⟨f, rfl⟩ : ∃ f, fuel = f + 1 := ⟨fuel - 1, by omega⟩
    have hlt : elapsed < timeout := by simpa using htime
    have hs : pollOutputs (hist polls) = some outs := by simpa using hsucc
    simp [waitLoop, if_pos hlt, hs]
  | succ d ih =>
    intro fuel elapsed polls hdf hnone hsucc htime
    obtain ⟨f, rfl⟩ : ∃ f, fuel = f + 1 := ⟨fuel - 1, by omega⟩
    have hnn : (0 : Int) ≤ ((d + 1 : Nat) : Int) * interval :=
      mul_nonneg (by positivity) hI.le
    have hlt : elapsed < timeout := by
      have h1 : elapsed + ((d + 1 : Nat) : Int) * interval < timeout := by
        push_cast at htime
        push_cast
        linarith
      linarith
    have h0 : pollOutputs (hist polls) = none := by
      simpa using hnone 0 (by omega)
    have hrec := ih f (elapsed + interval) (polls + 1) (by omega)
        (fun j hj => by
          have hx := hnone (j + 1) (by omega)
          have hidx : polls + (j + 1) = polls + 1 + j := by omega
          rwa [hidx] at hx)
        (by
          have hidx : polls + (d + 1) = polls + 1 + d := by omega
          rwa [hidx] at hsucc)
        (by
          push_cast at htime
          linarith)
    simp only [waitLoop, if_pos hlt, h0]
    rw [hrec]
    congr 1
    omega

/-- C7: the wait loop returns the outputs of the first poll that reports
a non-empty outputs field, having issued exactly that many polls and no
more; and replacing any poll exception by the no-entry response leaves
the loop's behavior unchanged, so transient poll errors are treated
exactly as Pending. -/
theorem c7_first_success (hist : Nat → HistoryResult) (timeout interval : Int)
    (k : Nat) (outs : Outputs) (hI : 0 < interval)
    (hk : (k : Int) * interval < timeout)
    (hbefore : ∀ j, j < k → pollOutputs (hist j) = none)
    (hk_out : pollOutputs (hist k) = some outs) :
    wait_for_execution hist timeout interval = WaitOutcome.completed outs (k + 1) ∧
    (∀ (h2 : Nat → HistoryResult) (t i : Int) (fuel : Nat) (e : Int) (p : Nat),
      waitLoop (fun j => pendingize (h2 j)) t i fuel e p = waitLoop h2 t i fuel e p) := by
  constructor
  · have hkT : (k : Int) < timeout := by
      have h1 : (k : Int) * 1 ≤ (k : Int) * interval :=
        mul_le_mul_of_nonneg_left (by omega) (by positivity)
      linarith
    have hfuel : k < timeout.toNat + 1 := by omega
    have := waitLoop_completed_first hist timeout interval outs hI k
        (timeout.toNat + 1) 0 0 hfuel
        (fun j hj => by simpa using hbefore j hj)
        (by simpa using hk_out)
        (by simpa using hk)
    simpa [wait_for_execution] using this
  · intro h2 t i fuel
    induction fuel with
    | zero => intro e p; simp [waitLoop]
    | succ f ih =>
      intro e p
      have hpp : pollOutputs (pendingize (h2 p)) = pollOutputs (h2 p) := by
        cases h2 p with
        | response o => rfl
        | exn => rfl
      by_cases he : e < t
      · simp only [waitLoop, if_pos he, hpp]
        cases hpo : pollOutputs (h2 p) with
        | some o => rfl
        | none => exact ih (e + i) (p + 1)
      · simp only [waitLoop, if_neg he]

/-- C7 witness: the first poll raises, the second reports the outputs of
node 9; the wait returns them after exactly two polls, and the
error-as-pending invariance is instantiated alongside. -/
theorem c7_witness :
    wait_for_execution
        (fun j => if j = 0 then HistoryResult.exn
                  else HistoryResult.response
                    (some { outputs := some [(("9"), { images := [] })] }))
        10 2 =
      WaitOutcome.completed [(("9"), { images := [] })] (1 + 1) ∧
    (∀ (h2 : Nat → HistoryResult) (t i : Int) (fuel : Nat) (e : Int) (p : Nat),
      waitLoop (fun j => pendingize (h2 j)) t i fuel e p = waitLoop h2 t i fuel e p) :=
  c7_first_success _ 10 2 1 _ (by decide) (by norm_num)
    (fun j hj => by
      obtain rfl : j = 0 := by omega
      rfl)
    rfl

/-- Helper: looking up a key other than the one setFirst replaced sees
the original mapping. -/
theorem lookupKey_setFirst (key key2 : String) (v : JVal)
    (l : List (String × JVal)) (h : key ≠ key2) :
    lookupKey key (setFirst key2 v l) = lookupKey key l := by
  induction l with
  | nil => rfl
  | cons q rest ih =>
    obtain ⟨k, w⟩ := q
    by_cases hk : k = key2
    · subst hk
      have hkey : (k == key) = false := by
        rw [beq_eq_false_iff_ne]
        intro hkk
        exact h (hkk ▸ rfl)
      simp [setFirst, lookupKey, hkey]
    · have hne : (k == key2) = false := beq_eq_false_iff_ne.mpr hk
      simp [setFirst, lookupKey, hne, ih]

/-- Helper: the prompt patcher walks past any run of ineligible nodes and
patches the first eligible one, leaving everything else in place. -/
theorem patch_prompt_first (node_id : String) (node : Node)
    (post : List (String × Node)) (prompt_text : String)
    (hnode : promptEligible node = true) :
    ∀ pre : List (String × Node), (∀ x ∈ pre, promptEligible x.2 = false) →
      patch_prompt_text_node (pre ++ (node_id, node) :: post) prompt_text =
        (Except.ok (),
         pre ++ (node_id,
           { node with inputs := setFirst ("text") (JVal.str prompt_text) node.inputs })
           :: post) := by
  intro pre
  induction pre with
  | nil =>
    intro _
    simp [patch_prompt_text_node, hnode]
  | cons q rest ih =>
    intro hpre
    have hq : promptEligible q.2 = false := hpre q (by simp)
    have ihh := ih (fun x hx => hpre x (by simp [hx]))
    obtain ⟨k, n⟩ := q
    simp only [List.cons_append, patch_prompt_text_node, hq, Bool.false_eq_true,
      if_false, List.append_eq, ihh]

/-- Helper: with no eligible node, the prompt patcher raises ValueError
and the document is returned exactly as given. -/
theorem patch_prompt_none (prompt_text : String) :
    ∀ w : List (String × Node), (∀ x ∈ w, promptEligible x.2 = false) →
      patch_prompt_text_node w prompt_text =
        (Except.error PatchErr.noPromptTextNode, w) := by
  intro w
  induction w with
  | nil => intro _; rfl
  | cons q rest ih =>
    intro hw
    have hq : promptEligible q.2 = false := hw q (by simp)
    have ihh := ih (fun x hx => hw x (by simp [hx]))
    obtain ⟨k, n⟩ := q
    simp only [patch_prompt_text_node, hq, Bool.false_eq_true, if_false, ihh]

/-- Helper: with no eligible node, the image patcher raises ValueError
and the document is returned exactly as given. -/
theorem patch_image_none (image_name : JVal) :
    ∀ w : List (String × Node), (∀ x ∈ w, imageEligible x.2 = false) →
      patch_load_image_node w image_name =
        (Except.error PatchErr.noLoadImageNode, w) := by
  intro w
  induction w with
  | nil => intro _; rfl
  | cons q rest ih =>
    intro hw
    have hq : imageEligible q.2 = false := hw q (by simp)
    have ihh := ih (fun x hx => hw x (by simp [hx]))
    obtain ⟨k, n⟩ := q
    simp only [patch_load_image_node, hq, Bool.false_eq_true, if_false, ihh]

/-- Helper: the prompt patcher never changes the number of nodes. -/
theorem patch_prompt_len (prompt_text : String) :
    ∀ w : List (String × Node),
      ((patch_prompt_text_node w prompt_text).2).length = w.length := by
  intro w
  induction w with
  | nil => rfl
  | cons q rest ih =>
    obtain ⟨k, n⟩ := q
    by_cases hq : promptEligible n
    · simp [patch_prompt_text_node, hq]
    · simp [patch_prompt_text_node, hq, ih]

/-- Helper: the image patcher never changes the number of nodes. -/
theorem patch_image_len (image_name : JVal) :
    ∀ w : List (String × Node),
      ((patch_load_image_node w image_name).2).length = w.length := by
  intro w
  induction w with
  | nil => rfl
  | cons q rest ih =>
    obtain ⟨k, n⟩ := q
    by_cases hq : imageEligible n
    · simp [patch_load_image_node, hq]
    · simp [patch_load_image_node, hq, ih]

/-- C4: on a document split as an ineligible run, a first eligible
text-encoding node, and an arbitrary tail, the prompt patcher overwrites
exactly that node's text input with the supplied string and stops — the
run before, the tail after (even if it holds further eligible nodes), the
node's other record fields, and its other input keys are all unchanged —
and the selected node's title does not contain "negative"
case-insensitively. -/
theorem c4_patch_first (pre post : List (String × Node)) (node_id : String)
    (node : Node) (prompt_text : String)
    (hpre : ∀ x ∈ pre, promptEligible x.2 = false)
    (hnode : promptEligible node = true) :
    patch_prompt_text_node (pre ++ (node_id, node) :: post) prompt_text =
      (Except.ok (),
       pre ++ (node_id,
         { node with inputs := setFirst ("text") (JVal.str prompt_text) node.inputs })
         :: post) ∧
    strHasSub (titleLower node) ("negative") = false ∧
    (∀ key, key ≠ "text" →
      lookupKey key (setFirst ("text") (JVal.str prompt_text) node.inputs) =
        lookupKey key node.inputs) := by
  refine ⟨patch_prompt_first node_id node post prompt_text hnode pre hpre, ?_, ?_⟩
  · simp only [promptEligible, Bool.and_eq_true, Bool.not_eq_true'] at hnode
    exact hnode.1.2
  · intro key hkey
    exact lookupKey_setFirst key ("text") _ _ hkey

/-- C4 witness: a document whose first text-encoding node is titled
"Negative Prompt" and whose second is eligible — the patcher skips the
negative node and patches the second. -/
theorem c4_witness :
    patch_prompt_text_node [(("2"), negNode), (("6"), posNode)] ("a cat") =
      (Except.ok (),
       [(("2"), negNode),
        (("6"),
         { posNode with inputs := setFirst ("text") (JVal.str ("a cat")) posNode.inputs })]) ∧
    strHasSub (titleLower posNode) ("negative") = false ∧
    (∀ key, key ≠ "text" →
      lookupKey key (setFirst ("text") (JVal.str ("a cat")) posNode.inputs) =
        lookupKey key posNode.inputs) :=
  c4_patch_first [(("2"), negNode)] [] ("6") posNode ("a cat")
    (fun x hx => by
      rw [List.mem_singleton] at hx
      rw [hx]
      rfl)
    rfl

/-- C5: with no eligible target node in the document, each patcher fails
with its ValueError and the document it returns is exactly the input —
nothing is mutated; and (unconditionally) neither patcher ever creates or
removes a node. -/
theorem c5_not_found (w : List (String × Node)) (prompt_text : String)
    (image_name : JVal)
    (hp : ∀ x ∈ w, promptEligible x.2 = false)
    (hi : ∀ x ∈ w, imageEligible x.2 = false) :
    patch_prompt_text_node w prompt_text =
      (Except.error PatchErr.noPromptTextNode, w) ∧
    patch_load_image_node w image_name =
      (Except.error PatchErr.noLoadImageNode, w) ∧
    (∀ (w2 : List (String × Node)) (p2 : String),
      ((patch_prompt_text_node w2 p2).2).length = w2.length) ∧
    (∀ (w2 : List (String × Node)) (v2 : JVal),
      ((patch_load_image_node w2 v2).2).length = w2.length) :=
  ⟨patch_prompt_none prompt_text w hp, patch_image_none image_name w hi,
   fun w2 p2 => patch_prompt_len p2 w2, fun w2 v2 => patch_image_len v2 w2⟩

/-- C5 witness: a one-node document holding only a sampler node — both
patchers fail and return the document as given. -/
theorem c5_witness :
    patch_prompt_text_node [(("3"), samplerNode)] ("x") =
      (Except.error PatchErr.noPromptTextNode, [(("3"), samplerNode)]) ∧
    patch_load_image_node [(("3"), samplerNode)] (JVal.str ("img.png")) =
      (Except.error PatchErr.noLoadImageNode, [(("3"), samplerNode)]) ∧
    (∀ (w2 : List (String × Node)) (p2 : String),
      ((patch_prompt_text_node w2 p2).2).length = w2.length) ∧
    (∀ (w2 : List (String × Node)) (v2 : JVal),
      ((patch_load_image_node w2 v2).2).length = w2.length) :=
  c5_not_found [(("3"), samplerNode)] ("x") (JVal.str ("img.png"))
    (fun x hx => by
      rw [List.mem_singleton] at hx
      rw [hx]
      rfl)
    (fun x hx => by
      rw [List.mem_singleton] at hx
      rw [hx]
      rfl)

/-- Helper: when every /view request of one node succeeds, the inner
fetch loop returns the bytes in list order and issues one request per
descriptor. -/
theorem fetchNodeImages_ok (view : ImageDesc → Except Unit Bytes) :
    ∀ ds : List ImageDesc, (∀ d ∈ ds, (view d).isOk = true) →
      fetchNodeImages view ds =
        (Except.ok (ds.map (fun d => okBytes (view d))), ds) := by
  intro ds
  induction ds with
  | nil => intro _; rfl
  | cons d rest ih =>
    intro h
    have hd : (view d).isOk = true := h d (by simp)
    cases hv : view d with
    | error e => rw [hv] at hd; simp [Except.isOk, Except.toBool] at hd
    | ok b =>
      have ihh := ih (fun x hx => h x (by simp [hx]))
      simp [fetchNodeImages, hv, ihh, okBytes, Except.map]

/-- Helper: a failing /view request anywhere in one node's list makes the
inner fetch loop propagate the error. -/
theorem fetchNodeImages_err (view : ImageDesc → Except Unit Bytes) :
    ∀ ds : List ImageDesc, (∃ d ∈ ds, (view d).isOk = false) →
      (fetchNodeImages view ds).1 = Except.error () := by
  intro ds
  induction ds with
  | nil => intro h; simp at h
  | cons d rest ih =>
    intro h
    obtain ⟨d0, hd0, hfail⟩ := h
    cases hv : view d with
    | error e => simp [fetchNodeImages, hv]
    | ok b =>
      have hrest : d0 ∈ rest := by
        rcases List.mem_cons.mp hd0 with h1 | h1
        · subst h1; rw [hv] at hfail; simp [Except.isOk, Except.toBool] at hfail
        · exact h1
      have he := ih ⟨d0, hrest, hfail⟩
      simp [fetchNodeImages, hv, he, Except.map]

/-- Helper: all-successful case of the outer fetch loop. -/
theorem fetchAllImages_ok (view : ImageDesc → Except Unit Bytes) :
    ∀ outs : Outputs,
      (∀ d ∈ outs.flatMap (fun x => x.2.images), (view d).isOk = true) →
      fetchAllImages view outs =
        (Except.ok (outs.map (fun x => (x.1, x.2.images.map (fun d => okBytes (view d))))),
         outs.flatMap (fun x => x.2.images)) := by
  intro outs
  induction outs with
  | nil => intro _; rfl
  | cons q rest ih =>
    intro h
    obtain ⟨nid, out⟩ := q
    have h1 : ∀ d ∈ out.images, (view d).isOk = true := fun d hd =>
      h d (by simp [hd])
    have h2 := ih (fun d hd => h d (by simp [hd]))
    simp [fetchAllImages, fetchNodeImages_ok view out.images h1, h2, Except.map]

/-- Helper: a failing /view request anywhere in the outputs makes the
outer fetch loop end in the error, returning no artifact mapping. -/
theorem fetchAllImages_err (view : ImageDesc → Except Unit Bytes) :
    ∀ outs : Outputs,
      (∃ d ∈ outs.flatMap (fun x => x.2.images), (view d).isOk = false) →
      (fetchAllImages view outs).1 = Except.error () := by
  intro outs
  induction outs with
  | nil => intro h; simp at h
  | cons q rest ih =>
    intro h
    obtain ⟨nid, out⟩ := q
    obtain ⟨d0, hd0, hfail⟩ := h
    have hd0' : d0 ∈ out.images ∨ ∃ a b, (a, b) ∈ rest ∧ d0 ∈ b.images := by
      simpa using hd0
    rcases hd0' with hin | ⟨a, bb, hab, hin⟩
    · have he := fetchNodeImages_err view out.images ⟨d0, hin, hfail⟩
      simp only [fetchAllImages]
      rw [he]
    · have hmem : d0 ∈ rest.flatMap (fun x => x.2.images) := by
        simp only [List.mem_flatMap]
        exact ⟨(a, bb), hab, hin⟩
      cases hres : (fetchNodeImages view out.images).1 with
      | error e => simp only [fetchAllImages]; rw [hres]
      | ok bs =>
        have he := ih ⟨d0, hmem, hfail⟩
        simp only [fetchAllImages]
        rw [hres, he]
        rfl

/-- C8: the artifact fetch issues exactly one /view request per artifact
descriptor of every node's output list, in order, collecting the bytes
per node in list order; a failure of any single retrieval makes the fetch
end in the error with no partial mapping returned, and get_images then
surfaces it as the RetrievalFailed outcome of the run. -/
theorem c8_fetch_artifacts :
    (∀ (view : ImageDesc → Except Unit Bytes) (outs : Outputs),
      (∀ d ∈ outs.flatMap (fun x => x.2.images), (view d).isOk = true) →
      fetchAllImages view outs =
        (Except.ok (outs.map (fun x => (x.1, x.2.images.map (fun d => okBytes (view d))))),
         outs.flatMap (fun x => x.2.images))) ∧
    (∀ (view : ImageDesc → Except Unit Bytes) (outs : Outputs),
      (∃ d ∈ outs.flatMap (fun x => x.2.images), (view d).isOk = false) →
      (fetchAllImages view outs).1 = Except.error ()) ∧
    (∀ (env : ServerEnv) (pid : String) (outs : Outputs) (polls : Nat),
      env.queueResponse = Except.ok pid →
      wait_for_execution env.hist = WaitOutcome.completed outs polls →
      (fetchAllImages env.view outs).1 = Except.error () →
      (get_images env).result = Except.error RunErr.retrievalFailed) := by
  refine ⟨fetchAllImages_ok, fetchAllImages_err, ?_⟩
  intro env pid outs polls hq hw hf
  simp [get_images, queue_prompt, hq, hw, hf]

/-- C8 witness: a two-descriptor node fetched successfully; the same
outputs against a failing /view; and a full run whose single retrieval
fails, surfacing RetrievalFailed. -/
theorem c8_witness :
    fetchAllImages
        (fun d => if d.filename == "a.png" then Except.ok [1] else Except.ok [2])
        [(("9"), { images := [{ filename := ("a.png"), subfolder := (""), ftype := ("output") },
                              { filename := ("b.png"), subfolder := (""), ftype := ("output") }] })] =
      (Except.ok [(("9"), [[1], [2]])],
       [{ filename := ("a.png"), subfolder := (""), ftype := ("output") },
        { filename := ("b.png"), subfolder := (""), ftype := ("output") }]) ∧
    (fetchAllImages (fun _ => Except.error ())
        [(("9"), { images := [{ filename := ("a.png"), subfolder := (""), ftype := ("output") }] })]).1 =
      Except.error () ∧
    (get_images
        { queueResponse := Except.ok ("p1"),
          hist := fun _ => HistoryResult.response
            (some { outputs := some [(("9"),
              { images := [{ filename := ("a.png"), subfolder := (""), ftype := ("output") }] })] }),
          view := fun _ => Except.error () }).result =
      Except.error RunErr.retrievalFailed := by
  refine ⟨?_, ?_, ?_⟩
  · exact c8_fetch_artifacts.1 _ _ (by decide)
  · exact c8_fetch_artifacts.2.1 _ _ (by decide)
  · exact c8_fetch_artifacts.2.2 _ ("p1") _ 1 rfl rfl rfl

/-- Helper: with every upload swallowed or successful, the inner save
loop writes each image of the node under its 1-based index and, when S3
is enabled, attempts one upload per image under the comfyui/ key. -/
theorem saveNodeImages_ok (reencode : Bytes → Bytes) (s3e : Bool)
    (put : String → Except UploadExn Unit) (od pid nid : String)
    (hup : ∀ key, upload_to_s3 (put key) = Except.ok ()) :
    ∀ (datas : List Bytes) (idx : Nat),
      saveNodeImages reencode s3e put od pid nid datas idx =
        ((List.enumFrom idx datas).map (fun e =>
            (od ++ "/" ++ nid ++ "_" ++ toString e.1 ++ ".png", reencode e.2)),
         (if s3e then (List.enumFrom idx datas).map (fun e =>
            ("comfyui/" ++ pid ++ "/" ++ nid ++ "_" ++ toString e.1 ++ ".png", e.2)) else []),
         Except.ok ()) := by
  intro datas
  induction datas with
  | nil => intro idx; simp [saveNodeImages, List.enumFrom]
  | cons data rest ih =>
    intro idx
    cases s3e with
    | false => simp [saveNodeImages, List.enumFrom, ih (idx + 1), String.append_assoc]
    | true => simp [saveNodeImages, List.enumFrom, hup, ih (idx + 1), String.append_assoc]

/-- Helper: with every upload swallowed or successful, the outer save
loop writes the files of every node in iteration order and succeeds. -/
theorem saveAllImages_ok (reencode : Bytes → Bytes) (s3e : Bool)
    (put : String → Except UploadExn Unit) (od pid : String)
    (hup : ∀ key, upload_to_s3 (put key) = Except.ok ()) :
    ∀ images : List (String × List Bytes),
      saveAllImages reencode s3e put od pid images =
        (images.flatMap (fun x => (List.enumFrom 1 x.2).map (fun e =>
            (od ++ "/" ++ x.1 ++ "_" ++ toString e.1 ++ ".png", reencode e.2))),
         (if s3e then images.flatMap (fun x => (List.enumFrom 1 x.2).map (fun e =>
            ("comfyui/" ++ pid ++ "/" ++ x.1 ++ "_" ++ toString e.1 ++ ".png", e.2))) else []),
         Except.ok ()) := by
  intro images
  induction images with
  | nil => simp [saveAllImages]
  | cons q rest ih =>
    obtain ⟨nid, datas⟩ := q
    cases s3e with
    | false =>
      simp [saveAllImages, saveNodeImages_ok reencode false put od pid nid hup datas 1, ih]
    | true =>
      simp [saveAllImages, saveNodeImages_ok reencode true put od pid nid hup datas 1, ih]

/-- C1 (amended): an upload failure raised as BotoCoreError or
NoCredentialsError — the classes the except clause of upload_to_s3
catches — is swallowed inside the helper, which returns normally, so no
exception propagates out of save_images and the save completes; a failure
of another class (botocore's ClientError, raised when the object store
rejects the request, e.g. for bad credentials) is not covered and
propagates, as the counterexample shows. -/
theorem c1_upload_swallowed (reencode : Bytes → Bytes) (s3e : Bool)
    (put : String → Except UploadExn Unit)
    (images : List (String × List Bytes)) (pid : String)
    (hput : ∀ key e, put key = Except.error e → caughtByS3Handler e = true) :
    (∀ key, upload_to_s3 (put key) = Except.ok ()) ∧
    (save_images reencode s3e put images pid).result = Except.ok () := by
  have hup : ∀ key, upload_to_s3 (put key) = Except.ok () := by
    intro key
    cases hv : put key with
    | ok v => simp [upload_to_s3]
    | error e => simp [upload_to_s3, hput key e hv]
  refine ⟨hup, ?_⟩
  simp [save_images, saveAllImages_ok reencode s3e put _ pid hup images]

/-- C1 witness: every put_object call fails as NoCredentialsError; the
helper swallows each failure and save_images completes normally. -/
theorem c1_witness :
    (∀ key, upload_to_s3 ((fun (_ : String) => Except.error UploadExn.noCredentialsError) key) =
      Except.ok ()) ∧
    (save_images id true (fun (_ : String) => Except.error UploadExn.noCredentialsError)
      [(("9"), [[0]])] ("abc")).result = Except.ok () :=
  c1_upload_swallowed id true (fun (_ : String) => Except.error UploadExn.noCredentialsError)
    [(("9"), [[0]])] ("abc")
    (fun _ e h => by
      have h2 : UploadExn.noCredentialsError = e := Except.error.inj h
      rw [← h2]
      rfl)

/-- C9: save_images creates exactly the run-scoped directory
saved_images/prompt_id and writes each artifact, after the decode and
re-encode round trip, to that directory under node_id_index.png with
index the artifact's 1-based position within its node's list. -/
theorem c9_save_layout (reencode : Bytes → Bytes) (s3e : Bool)
    (put : String → Except UploadExn Unit)
    (images : List (String × List Bytes)) (pid : String)
    (hup : ∀ key, upload_to_s3 (put key) = Except.ok ()) :
    (save_images reencode s3e put images pid).dirsCreated =
      [("saved_images/") ++ pid] ∧
    (save_images reencode s3e put images pid).filesWritten =
      images.flatMap (fun x => (List.enumFrom 1 x.2).map (fun e =>
        ((("saved_images/") ++ pid) ++ "/" ++ x.1 ++ "_" ++ toString e.1 ++ ".png",
         reencode e.2))) := by
  constructor
  · rfl
  · simp [save_images, saveAllImages_ok reencode s3e put _ pid hup images]

/-- C9 witness: run id abc123, node 9 with two artifacts — the files are
saved_images/abc123/9_1.png and saved_images/abc123/9_2.png holding the
re-encoded bytes. -/
theorem c9_witness :
    (save_images id false (fun _ => Except.ok ()) [(("9"), [[7], [8]])]
      ("abc123")).dirsCreated = [("saved_images/") ++ ("abc123")] ∧
    (save_images id false (fun _ => Except.ok ()) [(("9"), [[7], [8]])]
      ("abc123")).filesWritten =
      [(("9"), [[7], [8]])].flatMap (fun x => (List.enumFrom 1 x.2).map (fun e =>
        ((("saved_images/") ++ ("abc123")) ++ "/" ++ x.1 ++ "_" ++ toString e.1 ++ ".png",
         id e.2))) :=
  c9_save_layout id false (fun _ => Except.ok ()) [(("9"), [[7], [8]])] ("abc123")
    (fun _ => rfl)

/-- C10: a timeout not greater than zero makes wait_for_execution raise
TimeoutError at once: the deadline check precedes the first poll, so the
poll count of the outcome is zero and no time has passed. -/
theorem c10_nonpositive_timeout (hist : Nat → HistoryResult)
    (timeout interval : Int) (hT : timeout ≤ 0) :
    wait_for_execution hist timeout interval = WaitOutcome.timedOut 0 0 := by
  unfold wait_for_execution waitLoop
  rw [if_neg (by omega : ¬ (0 : Int) < timeout)]

/-- C10 witness at timeout -3. -/
theorem c10_witness :
    wait_for_execution (fun _ => HistoryResult.exn) (-3) 7 = WaitOutcome.timedOut 0 0 :=
  c10_nonpositive_timeout _ (-3) 7 (by decide)

end ComfyApi
